import Mathlib

/-!
A verification development for the substrait-expr expression-building library.

The Rust source is shallowly embedded: protobuf message types become inductive
types, pure functions become Lean functions, mutable state (the extensions
registry, the expression builder's accumulator) becomes explicit state passing,
fallible code returns an `Except`-like result, and Rust panics (vector indexing
out of bounds, `todo!()`, `unwrap()` on `Err`, explicit `panic!`) are modelled
as a distinct `panic` outcome so that aborting and returning an error value are
distinguishable.

Modelling conventions, noted once here:
* Machine integers (`i32` field indexes, `u32` anchors and list indexes) are
  modelled as `Int`/`Nat`; the only place overflow matters is `i32 as usize`
  indexing, where a negative index is modelled as the panic it produces in Rust,
  and `u32` parsing, where the `2^32` bound is checked explicitly.
* A user-defined type in the wire format carries an integer anchor that the
  extensions registry resolves to a qualified `(uri, name)` pair.  In the type
  model below a user-defined type carries its qualified name directly; the
  anchor indirection itself is modelled separately in the registry section
  (`RegistryInternal`), which is what the registry claims are about.
* `BTreeMap` is modelled as an association list with unique keys; the map
  operations used by the embedded code (`entry().or_insert_with`, `get`) only
  depend on lookup, not on iteration order.
-/

namespace SubstraitExpr

/-- The two error kinds of `SubstraitExprError` (src/substrait-expr/src/error.rs). -/
inductive SError where
  | invalidSubstrait (msg : String)
  | invalidInput (msg : String)
deriving Repr, DecidableEq

/-- Result of running embedded code: ok, a returned error value, or a Rust
panic (out-of-bounds indexing, `todo!()`, `unwrap` on `Err`, `panic!`). -/
inductive Outcome (α : Type) where
  | ok (val : α)
  | err (e : SError)
  | panic (msg : String)
deriving Repr

/-- `util.rs`: `Option::required(prop)` — the error it produces when absent. -/
def requiredMissing (prop : String) : SError :=
  .invalidSubstrait ("The required property " ++ prop ++ " is missing")

/-- A uri/name pair (`QualifiedName` in src/substrait-expr/src/helpers/registry.rs). -/
structure QualifiedName where
  uri : String
  name : String
deriving Repr, DecidableEq

/-- `UNKNOWN_TYPE_URI` (src/substrait-expr/src/helpers/types.rs). -/
def UNKNOWN_TYPE_URI : String := "https://substrait.io/types"

/-- `UNKNOWN_TYPE_NAME` (src/substrait-expr/src/helpers/types.rs). -/
def UNKNOWN_TYPE_NAME : String := "unknown"

/-- `NO_VARIATION` (src/substrait-expr/src/helpers/types.rs). -/
def NO_VARIATION : Nat := 0

/-- Protobuf `Nullability::Nullable as i32`. -/
def NULLABLE : Int := 1

/-- Protobuf `Nullability::Required as i32`. -/
def REQUIRED : Int := 2

/-- `nullability(nullable)` (src/substrait-expr/src/helpers/types.rs). -/
def nullability (nullable : Bool) : Int :=
  if nullable then NULLABLE else REQUIRED

/-- The substrait protobuf `Type` message: `Type { kind: Option<Kind> }` with
`Kind` a tagged union.  `missing` is `Type { kind: None }`.  Every variant
carries its `nullability` (an `i32`) and `type_variation_reference` (a `u32`)
exactly as in the proto; parameterized variants carry their parameters.  A
user-defined type is modelled by its registry-resolved qualified name (see the
module comment). -/
inductive SType where
  | missing
  | binary (nullability : Int) (variation : Nat)
  | bool (nullability : Int) (variation : Nat)
  | date (nullability : Int) (variation : Nat)
  | decimal (nullability : Int) (variation : Nat) (precision scale : Int)
  | fixedBinary (nullability : Int) (variation : Nat) (length : Int)
  | fixedChar (nullability : Int) (variation : Nat) (length : Int)
  | fp32 (nullability : Int) (variation : Nat)
  | fp64 (nullability : Int) (variation : Nat)
  | i8 (nullability : Int) (variation : Nat)
  | i16 (nullability : Int) (variation : Nat)
  | i32 (nullability : Int) (variation : Nat)
  | i64 (nullability : Int) (variation : Nat)
  | intervalDay (nullability : Int) (variation : Nat)
  | intervalYear (nullability : Int) (variation : Nat)
  | list (nullability : Int) (variation : Nat) (elem : Option SType)
  | map (nullability : Int) (variation : Nat) (key value : Option SType)
  | string (nullability : Int) (variation : Nat)
  | struct_ (nullability : Int) (variation : Nat) (types : List SType)
  | time (nullability : Int) (variation : Nat)
  | timestamp (nullability : Int) (variation : Nat)
  | timestampTz (nullability : Int) (variation : Nat)
  | userDefined (nullability : Int) (variation : Nat) (qname : QualifiedName)
  | uuid (nullability : Int) (variation : Nat)
  | varchar (nullability : Int) (variation : Nat) (length : Int)
deriving Repr

/-- The union discriminant of a `Kind`, `none` when `kind` is absent; drives
`same_kind` (`std::mem::discriminant`). -/
def SType.kindId : SType → Option Nat
  | .missing => none
  | .binary .. => some 0
  | .bool .. => some 1
  | .date .. => some 2
  | .decimal .. => some 3
  | .fixedBinary .. => some 4
  | .fixedChar .. => some 5
  | .fp32 .. => some 6
  | .fp64 .. => some 7
  | .i8 .. => some 8
  | .i16 .. => some 9
  | .i32 .. => some 10
  | .i64 .. => some 11
  | .intervalDay .. => some 12
  | .intervalYear .. => some 13
  | .list .. => some 14
  | .map .. => some 15
  | .string .. => some 16
  | .struct_ .. => some 17
  | .time .. => some 18
  | .timestamp .. => some 19
  | .timestampTz .. => some 20
  | .userDefined .. => some 21
  | .uuid .. => some 22
  | .varchar .. => some 23

/-- `TypeExt::same_kind` (src/substrait-expr/src/helpers/types.rs): both kinds
must be present (else `InvalidSubstrait`), then compare discriminants only. -/
def SType.same_kind (a b : SType) : Except SError Bool :=
  match a.kindId with
  | none => .error (requiredMissing "kind")
  | some ka =>
    match b.kindId with
    | none => .error (requiredMissing "kind")
    | some kb => .ok (ka == kb)

/-- `TypeExt::children`: immediate struct members, else empty. -/
def SType.children : SType → List SType
  | .struct_ _ _ types => types
  | _ => []

mutual

/-- `TypeExt::num_types`: 1 for a non-struct, else 1 plus the sum over the
struct's member types. -/
def SType.num_types : SType → Nat
  | .struct_ _ _ types => numTypesList types + 1
  | _ => 1

/-- Sum of `num_types` over a member list (the `iter().map(...).sum()`). -/
def numTypesList : List SType → Nat
  | [] => 0
  | t :: ts => t.num_types + numTypesList ts

end

/-- `TypeExt::is_unknown`: the type is a user-defined type whose qualified name
is the reserved unknown sentinel.  (In the source the name is obtained by
registry lookup of the anchor; the model carries the name directly.) -/
def SType.is_unknown : SType → Bool
  | .userDefined _ _ q => q.uri == UNKNOWN_TYPE_URI && q.name == UNKNOWN_TYPE_NAME
  | _ => false

/-- `types::i32(nullable)` constructor (src/substrait-expr/src/helpers/types.rs). -/
def types.i32 (nullable : Bool) : SType := .i32 (nullability nullable) NO_VARIATION

/-- `types::fp32(nullable)`. -/
def types.fp32 (nullable : Bool) : SType := .fp32 (nullability nullable) NO_VARIATION

/-- `types::fp64(nullable)`. -/
def types.fp64 (nullable : Bool) : SType := .fp64 (nullability nullable) NO_VARIATION

/-- `types::string(nullable)`. -/
def types.string (nullable : Bool) : SType := .string (nullability nullable) NO_VARIATION

/-- `types::struct_(children, nullable)`. -/
def types.struct_ (children : List SType) (nullable : Bool) : SType :=
  .struct_ (nullability nullable) NO_VARIATION children

/-- The unknown sentinel type: `builder::types::unknown(&registry)` builds a
nullable user-defined type registered under the fixed unknown uri/name pair
(the registration side effect only mints the anchor the model elides). -/
def typesUnknown : SType :=
  .userDefined (nullability true) NO_VARIATION ⟨UNKNOWN_TYPE_URI, UNKNOWN_TYPE_NAME⟩

/-! ## Reference segments

Protobuf `ReferenceSegment { reference_type: Option<ReferenceType> }` with
`ReferenceType` one of `StructField { field: i32, child: Option<Box<ReferenceSegment>> }`,
`ListElement { offset: i32, child: ... }`, `MapKey { map_key: ..., child: ... }`.
Since a segment is exactly an optional reference type, `ReferenceSegment` is
modelled as `Option RefType`, and each `child` field is `Option ReferenceSegment`,
i.e. `Option (Option RefType)` — the outer option is the child's presence, the
inner one the child's own `reference_type`.  The `map_key` literal payload is
never read by the embedded code (the branch is `todo!()`) and is not carried. -/

inductive RefType where
  | structField (field : Int) (child : Option (Option RefType))
  | listElement (offset : Int) (child : Option (Option RefType))
  | mapKey (child : Option (Option RefType))
deriving Repr

/-- `ReferenceSegment` ≅ its optional `reference_type`. -/
abbrev ReferenceSegment := Option RefType

/-! ## Schemas (src/substrait-expr/src/helpers/schema.rs)

Each schema variant in the source also owns an `ExtensionsRegistry`; the only
use the embedded operations make of it is minting the anchor of the unknown
sentinel type, which the model represents by qualified name, so the registry
field is not carried here (it is modelled on its own below for the registry
claims). -/

/-- `NamesOnlySchemaNode`: a name plus child nodes (name is `""` at the root). -/
inductive NamesOnlySchemaNode where
  | mk (name : String) (children : List NamesOnlySchemaNode)
deriving Repr

/-- Field accessor for `NamesOnlySchemaNode.name`. -/
def NamesOnlySchemaNode.name : NamesOnlySchemaNode → String
  | .mk n _ => n

/-- Field accessor for `NamesOnlySchemaNode.children`. -/
def NamesOnlySchemaNode.children : NamesOnlySchemaNode → List NamesOnlySchemaNode
  | .mk _ c => c

/-- Protobuf `r#type::Struct`: the standalone struct message used as the root of
a types-only schema and inside `NamedStruct`. -/
structure StructMsg where
  types : List SType
  nullability : Int
  typeVariationReference : Nat
deriving Repr

/-- `FullSchemaNode`: name, type and child nodes. -/
inductive FullSchemaNode where
  | mk (name : String) (type : SType) (children : List FullSchemaNode)
deriving Repr

/-- Field accessor for `FullSchemaNode.name`. -/
def FullSchemaNode.name : FullSchemaNode → String
  | .mk n _ _ => n

/-- Field accessor for `FullSchemaNode.type`. -/
def FullSchemaNode.type : FullSchemaNode → SType
  | .mk _ t _ => t

/-- Field accessor for `FullSchemaNode.children`. -/
def FullSchemaNode.children : FullSchemaNode → List FullSchemaNode
  | .mk _ _ c => c

/-- `SchemaInfo`: the four schema-awareness variants.  Each payload is the
variant's root (`EmptySchema` has none). -/
inductive SchemaInfo where
  | empty
  | names (root : NamesOnlySchemaNode)
  | types (root : StructMsg)
  | full (root : FullSchemaNode)
deriving Repr

/-- `SchemaInfo::names_aware`. -/
def SchemaInfo.names_aware : SchemaInfo → Bool
  | .empty => false
  | .names _ => true
  | .types _ => false
  | .full _ => true

/-- `SchemaInfo::types_aware`. -/
def SchemaInfo.types_aware : SchemaInfo → Bool
  | .empty => false
  | .names _ => false
  | .types _ => true
  | .full _ => true

/-- `SchemaInfo::len_aware`. -/
def SchemaInfo.len_aware : SchemaInfo → Bool
  | .empty => false
  | .names _ => true
  | .types _ => true
  | .full _ => true

mutual

/-- Structural weight of a names node, for termination of the stack iterators. -/
def NamesOnlySchemaNode.weight : NamesOnlySchemaNode → Nat
  | .mk _ children => 1 + namesWeightList children

/-- Summed weight of a list of names nodes. -/
def namesWeightList : List NamesOnlySchemaNode → Nat
  | [] => 0
  | n :: ns => n.weight + namesWeightList ns

end

mutual

/-- Structural weight of a full-schema node, for termination of the iterators. -/
def FullSchemaNode.weight : FullSchemaNode → Nat
  | .mk _ _ children => 1 + fullWeightList children

/-- Summed weight of a list of full-schema nodes. -/
def fullWeightList : List FullSchemaNode → Nat
  | [] => 0
  | n :: ns => n.weight + fullWeightList ns

end

mutual

/-- Structural weight of a type, for termination of the stack iterators. -/
def SType.weight : SType → Nat
  | .struct_ _ _ types => 1 + stypeWeightList types
  | _ => 1

/-- Summed weight of a list of types. -/
def stypeWeightList : List SType → Nat
  | [] => 0
  | t :: ts => t.weight + stypeWeightList ts

end

theorem namesWeightList_append (a b : List NamesOnlySchemaNode) :
    namesWeightList (a ++ b) = namesWeightList a + namesWeightList b := by
  induction a with
  | nil =>
    have h0 : namesWeightList ([] : List NamesOnlySchemaNode) = 0 := rfl
    rw [List.nil_append, h0]
    omega
  | cons n ns ih =>
    have h1 : namesWeightList ((n :: ns) ++ b) = n.weight + namesWeightList (ns ++ b) := rfl
    have h2 : namesWeightList (n :: ns) = n.weight + namesWeightList ns := rfl
    rw [h1, h2, ih]
    omega

theorem fullWeightList_append (a b : List FullSchemaNode) :
    fullWeightList (a ++ b) = fullWeightList a + fullWeightList b := by
  induction a with
  | nil =>
    have h0 : fullWeightList ([] : List FullSchemaNode) = 0 := rfl
    rw [List.nil_append, h0]
    omega
  | cons n ns ih =>
    have h1 : fullWeightList ((n :: ns) ++ b) = n.weight + fullWeightList (ns ++ b) := rfl
    have h2 : fullWeightList (n :: ns) = n.weight + fullWeightList ns := rfl
    rw [h1, h2, ih]
    omega

theorem stypeWeightList_append (a b : List SType) :
    stypeWeightList (a ++ b) = stypeWeightList a + stypeWeightList b := by
  induction a with
  | nil =>
    have h0 : stypeWeightList ([] : List SType) = 0 := rfl
    rw [List.nil_append, h0]
    omega
  | cons n ns ih =>
    have h1 : stypeWeightList ((n :: ns) ++ b) = n.weight + stypeWeightList (ns ++ b) := rfl
    have h2 : stypeWeightList (n :: ns) = n.weight + stypeWeightList ns := rfl
    rw [h1, h2, ih]
    omega

theorem namesDfs_dec (n : NamesOnlySchemaNode) (ns : List NamesOnlySchemaNode) :
    namesWeightList (n.children ++ ns) < namesWeightList (n :: ns) := by
  cases n with
  | mk name children =>
    simp only [namesWeightList_append, namesWeightList, NamesOnlySchemaNode.weight,
      NamesOnlySchemaNode.children]
    omega

theorem fullDfs_dec (n : FullSchemaNode) (ns : List FullSchemaNode) :
    fullWeightList (n.children ++ ns) < fullWeightList (n :: ns) := by
  cases n with
  | mk name type children =>
    simp only [fullWeightList_append, fullWeightList, FullSchemaNode.weight,
      FullSchemaNode.children]
    omega

theorem stype_children_weight_lt (t : SType) : stypeWeightList t.children < t.weight := by
  cases t <;> simp only [SType.children, SType.weight, stypeWeightList] <;> omega

theorem stypeDfs_dec (t : SType) (ts : List SType) :
    stypeWeightList (t.children ++ ts) < stypeWeightList (t :: ts) := by
  have h := stype_children_weight_lt t
  simp only [stypeWeightList_append, stypeWeightList]
  omega

/-- `NamesOnlySchemaNodeNamesDfsIter`, run to exhaustion: pop the last `Vec`
element, push its children reversed, yield its name.  The model's list head is
the `Vec`'s end (the stack top), so `extend(children.iter().rev())` becomes
prepending `children`. -/
def namesDfsIter : List NamesOnlySchemaNode → List String
  | [] => []
  | node :: rest => node.name :: namesDfsIter (node.children ++ rest)
termination_by stack => namesWeightList stack
decreasing_by
  apply namesDfs_dec

/-- `FullSchemaFieldsDfsIter`, run to exhaustion: same stack discipline, but a
node is yielded only when `include_inner` is true or it has no children. -/
def fullFieldsDfs (includeInner : Bool) : List FullSchemaNode → List FullSchemaNode
  | [] => []
  | node :: rest =>
    if includeInner || node.children.isEmpty
    then node :: fullFieldsDfs includeInner (node.children ++ rest)
    else fullFieldsDfs includeInner (node.children ++ rest)
termination_by stack => fullWeightList stack
decreasing_by
  all_goals apply fullDfs_dec

/-- `TypesOnlySchemaTypesDfsIter`, run to exhaustion, over `Type::children`. -/
def typesDfsIter (includeInner : Bool) : List SType → List SType
  | [] => []
  | t :: rest =>
    if includeInner || t.children.isEmpty
    then t :: typesDfsIter includeInner (t.children ++ rest)
    else typesDfsIter includeInner (t.children ++ rest)
termination_by stack => stypeWeightList stack
decreasing_by
  all_goals apply stypeDfs_dec

/-- `types::bool(nullable)`. -/
def types.bool (nullable : Bool) : SType := .bool (nullability nullable) NO_VARIATION

/-- `types::i8(nullable)`. -/
def types.i8 (nullable : Bool) : SType := .i8 (nullability nullable) NO_VARIATION

/-- `types::i16(nullable)`. -/
def types.i16 (nullable : Bool) : SType := .i16 (nullability nullable) NO_VARIATION

/-- `types::i64(nullable)`. -/
def types.i64 (nullable : Bool) : SType := .i64 (nullability nullable) NO_VARIATION

/-- `types::binary(nullable)`. -/
def types.binary (nullable : Bool) : SType := .binary (nullability nullable) NO_VARIATION

theorem stypeWeight_le_of_mem {t : SType} {l : List SType} (h : t ∈ l) :
    t.weight ≤ stypeWeightList l := by
  induction l with
  | nil => cases h
  | cons x xs ih =>
    have hc : stypeWeightList (x :: xs) = x.weight + stypeWeightList xs := rfl
    rw [hc]
    rcases List.mem_cons.mp h with h1 | h2
    · subst h1
      omega
    · have := ih h2
      omega

/-! ## `SchemaInfo::resolve_type` (src/substrait-expr/src/helpers/schema.rs)

For the `TypesOnly` branch the source loops re-matching the SAME `ref_seg`
each iteration (`cur_seg` is never advanced — only the `Full` branch performs
`cur_seg = child.as_ref()`), while descending `cur` into the indexed member's
children.  The model reproduces this faithfully: the recursive call passes the
unchanged segment.  Vector indexing `cur[struct_field.field as usize]` panics
when the index is negative (the `as usize` cast wraps it far out of range) or
not less than the length; `ListElement`/`MapKey` are `todo!()` panics. -/

theorem stypeWeightList_children_lt_of_get? {cur : List SType} {i : Nat} {fld : SType}
    (h : cur.get? i = some fld) : stypeWeightList fld.children < stypeWeightList cur :=
  lt_of_lt_of_le (stype_children_weight_lt fld) (stypeWeight_le_of_mem (List.get?_mem h))

/-- The `SchemaInfo::Types(_)` branch of `resolve_type`, run to completion. -/
def typesResolveLoop (refSeg : ReferenceSegment) (cur : List SType) : Outcome SType :=
  match refSeg with
  | none => .err (requiredMissing "reference_type")
  | some (.structField field child) =>
    if field < 0 then .panic "index out of bounds"
    else
      match h : cur.get? field.toNat with
      | none => .panic "index out of bounds"
      | some fld =>
        match child with
        | some _ =>
          if fld.children.isEmpty then .err (.invalidInput "Invalid reference")
          else typesResolveLoop refSeg fld.children
        | none => .ok fld
  | some (.listElement _ _) => .panic "not yet implemented"
  | some (.mapKey _) => .panic "not yet implemented"
termination_by stypeWeightList cur
decreasing_by
  exact stypeWeightList_children_lt_of_get? h

/-- The `SchemaInfo::Full(_)` branch of `resolve_type`, run to completion; here
`cur_seg` IS advanced to the matched field's child segment each iteration. -/
def fullResolveLoop : ReferenceSegment → List FullSchemaNode → Outcome SType
  | none, _ => .err (requiredMissing "reference_type")
  | some (.structField field child), curChildren =>
    if field < 0 then .panic "index out of bounds"
    else
      match curChildren.get? field.toNat with
      | none => .panic "index out of bounds"
      | some fld =>
        match child with
        | some childSeg =>
          if fld.children.isEmpty then .err (.invalidInput "Invalid reference")
          else fullResolveLoop childSeg fld.children
        | none => .ok fld.type
  | some (.listElement _ _), _ => .panic "not yet implemented"
  | some (.mapKey _), _ => .panic "not yet implemented"

/-- `SchemaInfo::resolve_type`: Empty/NamesOnly unconditionally return the
unknown sentinel; TypesOnly/Full walk their member arrays. -/
def SchemaInfo.resolve_type : SchemaInfo → ReferenceSegment → Outcome SType
  | .empty, _ => .ok typesUnknown
  | .names _, _ => .ok typesUnknown
  | .types root, refSeg => typesResolveLoop refSeg root.types
  | .full root, refSeg => fullResolveLoop refSeg root.children

/-! ## DFS traversals and flattening -/

/-- `SchemaInfo::names_dfs`.  NOTE the initial stacks, faithful to the source:
the NamesOnly branch builds its stack with `Vec::from_iter(children.iter())`
(no `.rev()`), which in the head-is-top representation is `children.reverse`;
the Full branch uses `children.iter().rev()`, i.e. `children` itself. -/
def SchemaInfo.names_dfs : SchemaInfo → Except SError (List String)
  | .empty =>
    .error (.invalidInput "Attempt to access field names when the schema is not name-aware")
  | .names root => .ok (namesDfsIter root.children.reverse)
  | .types _ =>
    .error (.invalidInput "Attempt to access field names when the schema is not name-aware")
  | .full root => .ok ((fullFieldsDfs true root.children).map FullSchemaNode.name)

mutual

/-- `NamesOnlySchemaNode::as_type`: leaves become the unknown type, nested
nodes become a nullable struct of their children's types. -/
def NamesOnlySchemaNode.as_type (node : NamesOnlySchemaNode) (unknown_type : SType) : SType :=
  match node with
  | .mk _ children =>
    if children.isEmpty then unknown_type
    else types.struct_ (asTypeList children unknown_type) true

/-- `children.iter().map(|child| child.as_type(..))`. -/
def asTypeList : List NamesOnlySchemaNode → SType → List SType
  | [], _ => []
  | n :: ns, u => n.as_type u :: asTypeList ns u

end

/-- `SchemaInfo::types_dfs(include_inner)`.  Empty yields nothing; NamesOnly
maps `as_type` over the root's children (flat, ignoring `include_inner`);
TypesOnly/Full run the stack iterators (whose source-side initial stacks are
reversed, i.e. `root.types` / `root.children` in head-is-top form). -/
def SchemaInfo.types_dfs : SchemaInfo → Bool → List SType
  | .empty, _ => []
  | .names root, _ => asTypeList root.children typesUnknown
  | .types root, includeInner => typesDfsIter includeInner root.types
  | .full root, includeInner => (fullFieldsDfs includeInner root.children).map FullSchemaNode.type

/-- Protobuf `NamedStruct`. -/
structure NamedStruct where
  names : List String
  struct : Option StructMsg
deriving Repr

/-- `SchemaInfo::to_substrait`: flatten to a names+types pair; when not
names-aware, synthesize `field_<index>` names.  The source calls
`names_dfs().unwrap()` under the `names_aware` guard; the unwrap-on-`Err`
panic is modelled (it is unreachable, but the model keeps it). -/
def SchemaInfo.to_substrait (schema : SchemaInfo) : Outcome NamedStruct :=
  let ts := schema.types_dfs false
  match (if schema.names_aware then
           match schema.names_dfs with
           | .ok ns => Outcome.ok ns
           | .error _ => Outcome.panic "called unwrap on an Err value"
         else Outcome.ok ((List.range ts.length).map (fun idx => "field_" ++ toString idx))) with
  | .ok nms => .ok ⟨nms, some ⟨ts, nullability false, 0⟩⟩
  | .err e => .err e
  | .panic m => .panic m

/-! ## Literals and expressions (src/substrait-expr/src/helpers/{literals,expr}.rs) -/

/-- Literal payload discriminants used by `LiteralExt::data_type`.  The literal
VALUES are never read by the modelled operations, so they are not carried;
variants whose `data_type` is `todo!()` are collapsed into `other`. -/
inductive LiteralType where
  | binary
  | boolean
  | fp32
  | fp64
  | i8
  | i16
  | i32
  | i64
  | null (dt : SType)
  | string
  | other
deriving Repr

/-- Protobuf `Literal`: its optional payload plus the `nullable` flag. -/
structure SLiteral where
  literal_type : Option LiteralType
  nullable : Bool
deriving Repr

/-- `LiteralExt::data_type` (src/substrait-expr/src/helpers/literals.rs). -/
def SLiteral.data_type (lit : SLiteral) : Outcome SType :=
  match lit.literal_type with
  | some .binary => .ok (types.binary lit.nullable)
  | some .boolean => .ok (types.bool lit.nullable)
  | some .fp32 => .ok (types.fp32 lit.nullable)
  | some .fp64 => .ok (types.fp64 lit.nullable)
  | some .i8 => .ok (types.i8 lit.nullable)
  | some .i16 => .ok (types.i16 lit.nullable)
  | some .i32 => .ok (types.i32 lit.nullable)
  | some .i64 => .ok (types.i64 lit.nullable)
  | some (.null dt) => .ok dt
  | some .string => .ok (types.string lit.nullable)
  | none => .err (.invalidSubstrait "Literal was missing required literal_type property")
  | some .other => .panic "not yet implemented"

/-- `field_reference::RootType`; the `Expression` payload is unread (its
branch in `output_type` is `todo!()`). -/
inductive RootType where
  | expression
  | rootReference
  | outerReference
deriving Repr

/-- `field_reference::ReferenceType`; the `MaskedReference` payload is unread. -/
inductive FieldRefType where
  | directReference (seg : ReferenceSegment)
  | maskedReference
deriving Repr

/-- Protobuf `FieldReference` (the fields read by `output_type`). -/
structure FieldReference where
  root_type : Option RootType
  reference_type : Option FieldRefType
deriving Repr

/-- Protobuf `RexType`.  `scalarFunction` carries the one field `output_type`
reads (`ScalarFunction::output_type`); all `RexType` variants other than
Literal/ScalarFunction/Selection hit the `_ => todo!()` arm and are collapsed
into `otherRex`. -/
inductive RexType where
  | literal (lit : SLiteral)
  | scalarFunction (output_type : Option SType)
  | selection (ref : FieldReference)
  | otherRex
deriving Repr

/-- Protobuf `Expression`. -/
structure Expression where
  rex_type : Option RexType
deriving Repr

/-- `ExpressionExt::output_type` (src/substrait-expr/src/helpers/expr.rs). -/
def Expression.output_type (e : Expression) (schema : SchemaInfo) : Outcome SType :=
  match e.rex_type with
  | none => .err (.invalidSubstrait "The required property rex_type was missing from an expression")
  | some (.literal lit) => lit.data_type
  | some (.scalarFunction ot) =>
    match ot with
    | none => .err (requiredMissing "output_type")
    | some t => .ok t
  | some (.selection ref) =>
    match ref.root_type with
    | none => .err (requiredMissing "root_type")
    | some .expression => .panic "not yet implemented"
    | some .rootReference =>
      match ref.reference_type with
      | none => .err (requiredMissing "reference_type")
      | some (.directReference rootSegment) => schema.resolve_type rootSegment
      | some .maskedReference =>
        .err (.invalidSubstrait "A root reference did not have a reference type of direct reference")
    | some .outerReference => .panic "not yet implemented"
  | some .otherRex => .panic "not yet implemented"

/-! ## The path-string parser (`NamedRefIter`, src/substrait-expr/src/builder/schema.rs)

The source is a character iterator with an `in_brackets` flag; every consumer
(`resolve_by_name`) drains it with `?`, stopping at the first error.  The model
fuses iterator and drain into two mutually recursive functions, one per mode,
each accumulating the current `part` and structurally consuming the character
list; their results are the full element sequence or the first error. -/

/-- One parsed path element (`NamedRefElement`). -/
inductive NamedRefElement where
  | name (s : String)
  | listIndex (idx : Nat)
  | mapLookup (s : String)
deriving Repr, DecidableEq

/-- The error every malformed path produces (`NamedRefIter::invalid`). -/
def invalidRef (val : String) : SError :=
  .invalidInput ("Invalid field reference: " ++ val)

/-- Rust's `str::parse::<u32>()`: an optional leading `+`, then one or more
decimal digits, value below `2^32`. -/
def parseU32 (cs : List Char) : Option Nat :=
  let digits := match cs with
    | '+' :: rest => rest
    | _ => cs
  if digits.isEmpty then none
  else if digits.all Char.isDigit then
    let n := digits.foldl (fun acc c => acc * 10 + (c.toNat - 48)) 0
    if n < 2 ^ 32 then some n else none
  else none

/-- The element a closed bracket group produces: an all-digit (u32) token is a
list index, anything else a map lookup. -/
def bracketElem (part : List Char) : NamedRefElement :=
  match parseU32 part with
  | some idx => .listIndex idx
  | none => .mapLookup (String.mk part)

mutual

/-- Normal (dot) mode of `NamedRefIter::next`, fused with the drain loop.
`orig` is the whole path (for error messages), `part` the accumulated segment. -/
def parseNormal (orig : String) (part : List Char) :
    List Char → Except SError (List NamedRefElement)
  | [] =>
    -- iterator exhaustion: a final non-empty part is one last Name element
    if part.isEmpty then .ok [] else .ok [.name (String.mk part)]
  | '.' :: rest =>
    -- `.` ends a segment; an empty segment (leading/doubled dot) is an error
    if part.isEmpty then .error (invalidRef orig)
    else
      match parseNormal orig [] rest with
      | .ok elems => .ok (.name (String.mk part) :: elems)
      | .error e => .error e
  | '[' :: rest =>
    -- `[` enters bracket mode, emitting the pending Name first if non-empty
    if part.isEmpty then parseBracket orig [] rest
    else
      match parseBracket orig [] rest with
      | .ok elems => .ok (.name (String.mk part) :: elems)
      | .error e => .error e
  | ']' :: _ => .error (invalidRef orig)
  | c :: rest => parseNormal orig (part ++ [c]) rest

/-- Bracket mode of `NamedRefIter::next`, fused with the drain loop: scan to
`]` (missing `]` and empty brackets are errors); after `]` the only accepted
continuations are `.` (consumed) or end of input. -/
def parseBracket (orig : String) (part : List Char) :
    List Char → Except SError (List NamedRefElement)
  | [] => .error (invalidRef orig)
  | ']' :: rest =>
    if part.isEmpty then .error (invalidRef orig)
    else
      match rest with
      | [] => .ok [bracketElem part]
      | '.' :: rest2 =>
        match parseNormal orig [] rest2 with
        | .ok elems => .ok (bracketElem part :: elems)
        | .error e => .error e
      | _ :: _ => .error (invalidRef orig)
  | c :: rest => parseBracket orig (part ++ [c]) rest

end

/-- Parse a whole path string, as `resolve_by_name` drains `NamedRefIter`. -/
def parsePath (s : String) : Except SError (List NamedRefElement) :=
  parseNormal s [] s.toList

/-! ## Function catalog and overload resolution (src/substrait-expr/src/builder/functions.rs) -/

/-- `ImplementationArgType`: an Enum argument (allowed string values) or a
Value argument of an expected type. -/
inductive ImplementationArgType where
  | enum (options : List String)
  | value (t : SType)
deriving Repr

/-- `ImplementationArg`: a named function argument. -/
structure ImplementationArg where
  name : String
  arg_type : ImplementationArgType
deriving Repr

/-- `ImplementationArg::matches`: an unknown supplied type always matches;
otherwise Enum args require same-kind-as-string, Value args same-kind as the
expected type. -/
def ImplementationArg.matches (a : ImplementationArg) (argType : SType) : Except SError Bool :=
  if argType.is_unknown then .ok true
  else
    match a.arg_type with
    | .enum _ => argType.same_kind (types.string true)
    | .value expected => argType.same_kind expected

/-- `FunctionImplementation`: argument list and output type. -/
structure FunctionImplementation where
  args : List ImplementationArg
  output_type : SType
deriving Repr

/-- `FunctionImplementation::matches`: arity equal and every zipped position
matches (`unwrap_or(false)` collapses a same-kind error to a non-match). -/
def FunctionImplementation.matches (imp : FunctionImplementation) (argTypes : List SType) : Bool :=
  if argTypes.length != imp.args.length then false
  else
    (imp.args.zip argTypes).all fun p =>
      match p.1.matches p.2 with
      | .ok b => b
      | .error _ => false

/-- `FunctionImplementation::relax`: positions whose supplied type is unknown
are rewritten to a Value arg of that unknown type; if any supplied type is
unknown the output type becomes the unknown sentinel. -/
def FunctionImplementation.relax (imp : FunctionImplementation) (types : List SType) :
    Except SError FunctionImplementation :=
  if imp.args.length != types.length then
    .error (.invalidInput ("Attempt to relax implementation with " ++
      toString imp.args.length ++ " args using " ++ toString types.length ++ " types"))
  else
    .ok
      { args :=
          (imp.args.zip types).map fun p =>
            if p.2.is_unknown then { name := p.1.name, arg_type := .value p.2 } else p.1,
        output_type :=
          if types.any SType.is_unknown then typesUnknown else imp.output_type }

/-- `FunctionDefinition`: uri, name and implementations in declaration order. -/
structure FunctionDefinition where
  uri : String
  name : String
  implementations : List FunctionImplementation
deriving Repr

/-- `args.iter().map(|arg| arg.output_type(schema)).collect::<Result<Vec<_>>>()`. -/
def argOutputTypes (args : List Expression) (schema : SchemaInfo) : Outcome (List SType) :=
  match args with
  | [] => .ok []
  | a :: rest =>
    match a.output_type schema with
    | .ok t =>
      match argOutputTypes rest schema with
      | .ok ts => .ok (t :: ts)
      | .err e => .err e
      | .panic m => .panic m
    | .err e => .err e
    | .panic m => .panic m

/-- `FunctionDefinition::pick_implementation_from_args`: compute each
argument's static type, take the first implementation whose `matches` holds,
and relax it; `None` when no implementation matches. -/
def FunctionDefinition.pick_implementation_from_args (fd : FunctionDefinition)
    (args : List Expression) (schema : SchemaInfo) :
    Outcome (Option FunctionImplementation) :=
  match argOutputTypes args schema with
  | .err e => .err e
  | .panic m => .panic m
  | .ok ts =>
    match fd.implementations.find? (fun imp => imp.matches ts) with
    | none => .ok none
    | some imp =>
      match imp.relax ts with
      | .ok r => .ok (some r)
      | .error e => .err e

/-- The no-matching-overload error `FunctionBuilder::build` raises when
`pick_implementation_from_args` returns `None`.  The source formats the whole
`FunctionDefinition` with `{:?}`; the model abbreviates that debug dump to the
function's name (the message text is not load-bearing). -/
def noMatchingOverload (fd : FunctionDefinition) : SError :=
  .invalidInput ("Cannot find matching call to function " ++ fd.name ++
    " that takes the given arguments")

/-- The overload-resolution step of `FunctionBuilder::build`:
`pick_implementation_from_args(..)?.ok_or_else(no matching call ..)`. -/
def pickOrError (fd : FunctionDefinition) (args : List Expression) (schema : SchemaInfo) :
    Outcome FunctionImplementation :=
  match fd.pick_implementation_from_args args schema with
  | .ok (some imp) => .ok imp
  | .ok none => .err (noMatchingOverload fd)
  | .err e => .err e
  | .panic m => .panic m

/-! ## The extensions registry (src/substrait-expr/src/helpers/registry.rs)

`RegistryInternal` holds two `BTreeMap`s keyed by the CONCATENATION `uri + name`
(no separator), two inverse maps keyed by anchor, and one counter shared by
types and functions, starting at 1.  The maps are modelled as association
lists; the embedded operations only use lookup and insert-if-absent, which do
not depend on the `BTreeMap` iteration order. -/

/-- `TypeRecord` / `FunctionRecord` (identical shapes). -/
structure RegistryRecord where
  uri : String
  name : String
  anchor : Nat
deriving Repr, DecidableEq

/-- `RegistryInternal`. -/
structure RegistryInternal where
  functions : List (String × RegistryRecord)
  functionsInverse : List (Nat × RegistryRecord)
  types : List (String × RegistryRecord)
  typesInverse : List (Nat × RegistryRecord)
  counter : Nat
deriving Repr, DecidableEq

/-- `ExtensionsRegistry::default()`: all maps empty, counter 1. -/
def registryDefault : RegistryInternal := ⟨[], [], [], [], 1⟩

/-- `RegistryInternal::lookup_type`. -/
def RegistryInternal.lookup_type (r : RegistryInternal) (anchor : Nat) : Option QualifiedName :=
  (r.typesInverse.lookup anchor).map fun rcd => ⟨rcd.uri, rcd.name⟩

/-- `RegistryInternal::lookup_function`. -/
def RegistryInternal.lookup_function (r : RegistryInternal) (anchor : Nat) : Option QualifiedName :=
  (r.functionsInverse.lookup anchor).map fun rcd => ⟨rcd.uri, rcd.name⟩

/-- `RegistryInternal::register_type`: key is `uri + name`; if present return
the stored anchor, else take the counter as the anchor, bump the counter and
insert into both the forward and inverse maps. -/
def RegistryInternal.register_type (r : RegistryInternal) (uri name : String) :
    Nat × RegistryInternal :=
  let key := uri ++ name
  match r.types.lookup key with
  | some rcd => (rcd.anchor, r)
  | none =>
    let anchor := r.counter
    let rcd : RegistryRecord := ⟨uri, name, anchor⟩
    (anchor,
      { r with
        counter := r.counter + 1
        types := r.types ++ [(key, rcd)]
        typesInverse := r.typesInverse ++ [(anchor, rcd)] })

/-- `RegistryInternal::register_function` — same discipline on the function
maps, drawing from the same shared counter. -/
def RegistryInternal.register_function (r : RegistryInternal) (uri name : String) :
    Nat × RegistryInternal :=
  let key := uri ++ name
  match r.functions.lookup key with
  | some rcd => (rcd.anchor, r)
  | none =>
    let anchor := r.counter
    let rcd : RegistryRecord := ⟨uri, name, anchor⟩
    (anchor,
      { r with
        counter := r.counter + 1
        functions := r.functions ++ [(key, rcd)]
        functionsInverse := r.functionsInverse ++ [(anchor, rcd)] })

/-- One registration call observed by a registry over its lifetime. -/
inductive RegOp where
  | regType (uri name : String)
  | regFunction (uri name : String)
deriving Repr, DecidableEq

/-- Apply one registration, discarding the returned anchor. -/
def RegistryInternal.applyOp (r : RegistryInternal) : RegOp → RegistryInternal
  | .regType uri name => (r.register_type uri name).2
  | .regFunction uri name => (r.register_function uri name).2

/-- Run a registration history against a registry state. -/
def applyOpsFrom (r : RegistryInternal) (ops : List RegOp) : RegistryInternal :=
  ops.foldl RegistryInternal.applyOp r

/-- Run a registration history from a fresh registry. -/
def applyOps (ops : List RegOp) : RegistryInternal :=
  applyOpsFrom registryDefault ops

/-! ## Schema builder for full schemas (src/substrait-expr/src/builder/schema.rs)

Each builder also owns an `Arc<ExtensionsRegistry>` used only to mint
user-defined-type anchors; it is not read by any modelled operation and is not
carried (see the module comment). -/

/-- `FullSchemaBuilder` (fields `nullable`, `name`, `children`). -/
structure FullSchemaBuilder where
  nullable : Bool
  name : String
  children : List FullSchemaNode
deriving Repr

/-- `FullSchemaBuilder::new`. -/
def FullSchemaBuilder.new (nullable : Bool) (name : String) : FullSchemaBuilder :=
  ⟨nullable, name, []⟩

/-- `FullSchemaBuilder::field`: appends a leaf node; `panic!`s when handed a
struct type (`nested` must be used instead). -/
def FullSchemaBuilder.field (b : FullSchemaBuilder) (name : String) (typ : SType) :
    Outcome FullSchemaBuilder :=
  match typ with
  | .struct_ _ _ _ =>
    .panic "FullSchemaBuilder::field was called with a struct"
  | _ => .ok { b with children := b.children ++ [.mk name typ []] }

/-- `FullSchemaBuilder::inner_build`: a struct type over the children's types,
wrapped in a node carrying the builder's name and the child nodes. -/
def FullSchemaBuilder.inner_build (b : FullSchemaBuilder) : FullSchemaNode :=
  .mk b.name
    (.struct_ (nullability b.nullable) NO_VARIATION (b.children.map FullSchemaNode.type))
    b.children

/-- `FullSchemaBuilder::nested`: run the callback on a fresh builder for the
sub-tree and append its `inner_build` root.  (Rust closures return the builder
directly; the `Outcome` plumbing propagates a panic raised inside them.) -/
def FullSchemaBuilder.nested (b : FullSchemaBuilder) (name : String) (nullable : Bool)
    (build_func : FullSchemaBuilder → Outcome FullSchemaBuilder) : Outcome FullSchemaBuilder :=
  match build_func (FullSchemaBuilder.new nullable name) with
  | .ok inner => .ok { b with children := b.children ++ [inner.inner_build] }
  | .err e => .err e
  | .panic m => .panic m

/-- `FullSchemaBuilder::build`. -/
def FullSchemaBuilder.build (b : FullSchemaBuilder) : SchemaInfo :=
  .full b.inner_build

/-- `SchemaInfo::new_full()`: root is non-nullable with an empty name. -/
def SchemaInfo.new_full : FullSchemaBuilder :=
  FullSchemaBuilder.new false ""

/-! ## The expressions builder (src/substrait-expr/src/builder.rs) -/

/-- `NamedExpression`. -/
structure NamedExpression where
  expr : Expression
  output_names : List String
deriving Repr

/-- `NamedExpression::try_new`: compute the expression's output type against
the schema, demand `num_types == len(output_names)`. -/
def NamedExpression.try_new (expr : Expression) (output_names : List String)
    (schema : SchemaInfo) : Outcome NamedExpression :=
  match expr.output_type schema with
  | .err e => .err e
  | .panic m => .panic m
  | .ok t =>
    if t.num_types != output_names.length then
      .err (.invalidInput ("An expression was given that returns " ++
        toString t.num_types ++ " types but only " ++
        toString output_names.length ++ " names were given"))
    else .ok ⟨expr, output_names⟩

/-- `ExpressionsBuilder`: the owned schema and the accumulated expressions.
The `params` bundle is owned too but never read by `add_expression` and is not
carried. -/
structure ExpressionsBuilder where
  schema : SchemaInfo
  expressions : List NamedExpression

/-- `ExpressionsBuilder::add_expression`: `expressions.push(try_new(..)?)` —
the `?` propagates a failure BEFORE the push, so on failure the accumulated
list is returned untouched. -/
def ExpressionsBuilder.add_expression (b : ExpressionsBuilder) (output_names : List String)
    (expression : Expression) : Outcome Unit × ExpressionsBuilder :=
  match NamedExpression.try_new expression output_names b.schema with
  | .ok ne => (.ok (), { b with expressions := b.expressions ++ [ne] })
  | .err e => (.err e, b)
  | .panic m => (.panic m, b)

/-- Sequencing for `Outcome` (used to chain builder calls the way Rust method
chaining does, propagating errors and panics). -/
def Outcome.bind {α β : Type} : Outcome α → (α → Outcome β) → Outcome β
  | .ok v, f => f v
  | .err e, _ => .err e
  | .panic m, _ => .panic m

/-! ## Concrete inputs used by the claim theorems -/

/-- A types-only root `[struct(i32 not-null, fp64 nullable)]`. -/
def typesChainEx : StructMsg :=
  ⟨[types.struct_ [types.i32 false, types.fp64 true] false], nullability false, 0⟩

/-- The full-schema root with the same member shape:
`{a: {b: i32 not-null, c: fp64 nullable}}`. -/
def fullChainEx : FullSchemaNode :=
  .mk "" (types.struct_ [types.struct_ [types.i32 false, types.fp64 true] false] false)
    [.mk "a" (types.struct_ [types.i32 false, types.fp64 true] false)
      [.mk "b" (types.i32 false) [], .mk "c" (types.fp64 true) []]]

/-- The chained reference `[0].[1]` (field 0, then child field 1): both indices
in range for `typesChainEx`/`fullChainEx`, selecting the fp64 member. -/
def chainedRef : ReferenceSegment :=
  some (.structField 0 (some (some (.structField 1 none))))

/-- A single-step reference with the out-of-range index 5. -/
def outOfRangeRef : ReferenceSegment :=
  some (.structField 5 none)

/-- A list-element reference step (unimplemented in `resolve_type`). -/
def listElementRef : ReferenceSegment :=
  some (.listElement 0 none)

/-- A map-key reference step (unimplemented in `resolve_type`). -/
def mapKeyRef : ReferenceSegment :=
  some (.mapKey none)

/-- A field reference rooted at an outer reference (unimplemented in
`output_type`). -/
def outerRootedExpr : Expression :=
  ⟨some (.selection ⟨some .outerReference, some (.directReference (some (.structField 0 none)))⟩)⟩

/-- A field reference rooted at an expression (unimplemented in
`output_type`). -/
def exprRootedExpr : Expression :=
  ⟨some (.selection ⟨some .expression, some (.directReference (some (.structField 0 none)))⟩)⟩

/-- A names-only root `{a: {b, c}, d}`. -/
def namesEx : NamesOnlySchemaNode :=
  .mk "" [.mk "a" [.mk "b" [], .mk "c" []], .mk "d" []]

/-- A full-schema root `{score: i32 not-null, location: {x: fp32 not-null,
y: fp64 nullable}}`, written directly (the builder-made copy is `c9Schema`). -/
def fullNamesEx : FullSchemaNode :=
  .mk ""
    (types.struct_
      [types.i32 false, types.struct_ [types.fp32 false, types.fp64 true] false] false)
    [.mk "score" (types.i32 false) [],
     .mk "location" (types.struct_ [types.fp32 false, types.fp64 true] false)
       [.mk "x" (types.fp32 false) [], .mk "y" (types.fp64 true) []]]

/-- The `(i32,i32)→i32` implementation of the overload-resolution example. -/
def implI32 : FunctionImplementation :=
  ⟨[⟨"x", .value (types.i32 false)⟩, ⟨"y", .value (types.i32 false)⟩], types.i32 false⟩

/-- The `(fp64,fp64)→fp64` implementation of the overload-resolution example. -/
def implFp64 : FunctionImplementation :=
  ⟨[⟨"x", .value (types.fp64 false)⟩, ⟨"y", .value (types.fp64 false)⟩], types.fp64 false⟩

/-- A function definition with the two example implementations, in order. -/
def addDef : FunctionDefinition :=
  ⟨"https://example.com/functions.yaml", "add", [implI32, implFp64]⟩

/-- An argument expression of static type i32 (a scalar-function call whose
recorded output type is i32). -/
def argI32 : Expression := ⟨some (.scalarFunction (some (types.i32 false)))⟩

/-- An argument expression of the unknown static type. -/
def argUnknown : Expression := ⟨some (.scalarFunction (some typesUnknown))⟩

/-- An expression of static type `struct(i32)` (output type count 2). -/
def argStruct2 : Expression :=
  ⟨some (.scalarFunction (some (types.struct_ [types.i32 false] false)))⟩

/-- The schema `{score: i32 not-null, location: {x: fp32 not-null, y: fp64
nullable}}` built through `FullSchemaBuilder`, then `build()`. -/
def c9Schema : Outcome SchemaInfo :=
  (SchemaInfo.new_full.field "score" (types.i32 false)).bind fun b1 =>
    (b1.nested "location" false fun bld =>
      (bld.field "x" (types.fp32 false)).bind fun b => b.field "y" (types.fp64 true)).bind
      fun b2 => .ok b2.build

/-- A small registration history used to instantiate the registry theorems. -/
def c7DemoOps : List RegOp :=
  [.regType "https://example.com/a.yaml" "t1", .regFunction "https://example.com/b.yaml" "f1"]

/-! ## Association-list lemmas (proof infrastructure) -/

theorem lookup_append_some {κ ν : Type} [BEq κ] (l1 l2 : List (κ × ν)) (k : κ) (v : ν)
    (h : l1.lookup k = some v) : (l1 ++ l2).lookup k = some v := by
  induction l1 with
  | nil => simp [List.lookup] at h
  | cons p l1 ih =>
    cases p with
    | mk pk pv =>
      rw [List.cons_append]
      rw [List.lookup_cons] at h ⊢
      cases hb : (k == pk) with
      | true => rw [hb] at h; simpa [hb] using h
      | false => rw [hb] at h; simpa [hb] using ih h

theorem lookup_append_none {κ ν : Type} [BEq κ] (l1 l2 : List (κ × ν)) (k : κ)
    (h : l1.lookup k = none) : (l1 ++ l2).lookup k = l2.lookup k := by
  induction l1 with
  | nil => simp
  | cons p l1 ih =>
    cases p with
    | mk pk pv =>
      rw [List.cons_append]
      rw [List.lookup_cons] at h ⊢
      cases hb : (k == pk) with
      | true => rw [hb] at h; simp at h
      | false => rw [hb] at h; simpa [hb] using ih h

theorem lookup_some_mem {κ ν : Type} [BEq κ] [LawfulBEq κ] (l : List (κ × ν)) (k : κ) (v : ν)
    (h : l.lookup k = some v) : (k, v) ∈ l := by
  induction l with
  | nil => simp [List.lookup] at h
  | cons p l ih =>
    cases p with
    | mk pk pv =>
      rw [List.lookup_cons] at h
      cases hb : (k == pk) with
      | true =>
        rw [hb] at h
        simp only [Option.some.injEq] at h
        have hk : k = pk := eq_of_beq hb
        subst hk
        subst h
        exact List.mem_cons_self _ _
      | false =>
        rw [hb] at h
        exact List.mem_cons_of_mem _ (ih h)

theorem lookup_none_of_forall {κ ν : Type} [BEq κ] [LawfulBEq κ] (l : List (κ × ν)) (k : κ)
    (h : ∀ p ∈ l, p.1 ≠ k) : l.lookup k = none := by
  induction l with
  | nil => rfl
  | cons p l ih =>
    cases p with
    | mk pk pv =>
      rw [List.lookup_cons]
      cases hb : (k == pk) with
      | true =>
        exact absurd (eq_of_beq hb).symm (h (pk, pv) (List.mem_cons_self _ _))
      | false =>
        exact ih fun q hq => h q (List.mem_cons_of_mem _ hq)

theorem lookup_pairwise_anchor_ne {l : List (String × RegistryRecord)} {k1 k2 : String}
    {v1 v2 : RegistryRecord}
    (hp : l.Pairwise fun p q => p.2.anchor ≠ q.2.anchor)
    (h1 : l.lookup k1 = some v1) (h2 : l.lookup k2 = some v2) (hk : k1 ≠ k2) :
    v1.anchor ≠ v2.anchor := by
  induction l with
  | nil => simp [List.lookup] at h1
  | cons p l ih =>
    cases p with
    | mk pk pv =>
      rw [List.lookup_cons] at h1 h2
      rw [List.pairwise_cons] at hp
      cases hb1 : (k1 == pk) with
      | true =>
        rw [hb1] at h1
        simp only [Option.some.injEq] at h1
        subst h1
        cases hb2 : (k2 == pk) with
        | true => exact absurd ((eq_of_beq hb1).trans (eq_of_beq hb2).symm) hk
        | false =>
          rw [hb2] at h2
          exact hp.1 (k2, v2) (lookup_some_mem l k2 v2 h2)
      | false =>
        rw [hb1] at h1
        cases hb2 : (k2 == pk) with
        | true =>
          rw [hb2] at h2
          simp only [Option.some.injEq] at h2
          subst h2
          exact fun he => (hp.1 (k1, v1) (lookup_some_mem l k1 v1 h1)) he.symm
        | false =>
          rw [hb2] at h2
          exact ih hp.2 h1 h2

/-! ## Registry invariants (proof infrastructure, not part of the embedding) -/

/-- Invariant of every reachable registry state: the shared counter is one more
than the number of assignments made; every assigned anchor (in either inverse
map and either forward map) is below the counter; and within each forward map
all anchors are pairwise distinct. -/
def RegInv (s : RegistryInternal) : Prop :=
  s.counter = 1 + s.typesInverse.length + s.functionsInverse.length ∧
  (∀ p ∈ s.typesInverse, p.1 < s.counter) ∧
  (∀ p ∈ s.functionsInverse, p.1 < s.counter) ∧
  (∀ p ∈ s.types, p.2.anchor < s.counter) ∧
  (∀ p ∈ s.functions, p.2.anchor < s.counter) ∧
  (s.types.Pairwise fun p q => p.2.anchor ≠ q.2.anchor) ∧
  (s.functions.Pairwise fun p q => p.2.anchor ≠ q.2.anchor)

theorem regInv_default : RegInv registryDefault := by
  refine ⟨rfl, ?_, ?_, ?_, ?_, ?_, ?_⟩ <;> simp [registryDefault]

theorem regInv_register_type (s : RegistryInternal) (uri name : String) (hs : RegInv s) :
    RegInv (s.register_type uri name).2 := by
  obtain ⟨hc, hti, hfi, ht, hf, hpt, hpf⟩ := hs
  unfold RegistryInternal.register_type
  cases hl : s.types.lookup (uri ++ name) with
  | some rcd =>
    simp only [hl]
    exact ⟨hc, hti, hfi, ht, hf, hpt, hpf⟩
  | none =>
    simp only [hl]
    refine ⟨?_, ?_, ?_, ?_, ?_, ?_, ?_⟩
    · simp only [List.length_append, List.length_cons, List.length_nil]
      omega
    · intro p hp
      rcases List.mem_append.mp hp with h | h
      · exact Nat.lt_succ_of_lt (hti p h)
      · simp only [List.mem_singleton] at h
        subst h
        exact Nat.lt_succ_self _
    · intro p hp
      exact Nat.lt_succ_of_lt (hfi p hp)
    · intro p hp
      rcases List.mem_append.mp hp with h | h
      · exact Nat.lt_succ_of_lt (ht p h)
      · simp only [List.mem_singleton] at h
        subst h
        exact Nat.lt_succ_self _
    · intro p hp
      exact Nat.lt_succ_of_lt (hf p hp)
    · rw [List.pairwise_append]
      refine ⟨hpt, List.pairwise_singleton _ _, ?_⟩
      intro a ha b hb
      simp only [List.mem_singleton] at hb
      subst hb
      exact Nat.ne_of_lt (ht a ha)
    · exact hpf

theorem regInv_register_function (s : RegistryInternal) (uri name : String) (hs : RegInv s) :
    RegInv (s.register_function uri name).2 := by
  obtain ⟨hc, hti, hfi, ht, hf, hpt, hpf⟩ := hs
  unfold RegistryInternal.register_function
  cases hl : s.functions.lookup (uri ++ name) with
  | some rcd =>
    simp only [hl]
    exact ⟨hc, hti, hfi, ht, hf, hpt, hpf⟩
  | none =>
    simp only [hl]
    refine ⟨?_, ?_, ?_, ?_, ?_, ?_, ?_⟩
    · simp only [List.length_append, List.length_cons, List.length_nil]
      omega
    · intro p hp
      exact Nat.lt_succ_of_lt (hti p hp)
    · intro p hp
      rcases List.mem_append.mp hp with h | h
      · exact Nat.lt_succ_of_lt (hfi p h)
      · simp only [List.mem_singleton] at h
        subst h
        exact Nat.lt_succ_self _
    · intro p hp
      exact Nat.lt_succ_of_lt (ht p hp)
    · intro p hp
      rcases List.mem_append.mp hp with h | h
      · exact Nat.lt_succ_of_lt (hf p h)
      · simp only [List.mem_singleton] at h
        subst h
        exact Nat.lt_succ_self _
    · exact hpt
    · rw [List.pairwise_append]
      refine ⟨hpf, List.pairwise_singleton _ _, ?_⟩
      intro a ha b hb
      simp only [List.mem_singleton] at hb
      subst hb
      exact Nat.ne_of_lt (hf a ha)

theorem regInv_applyOp (s : RegistryInternal) (op : RegOp) (hs : RegInv s) :
    RegInv (s.applyOp op) := by
  cases op with
  | regType uri name => exact regInv_register_type s uri name hs
  | regFunction uri name => exact regInv_register_function s uri name hs

theorem regInv_applyOpsFrom (ops : List RegOp) (s : RegistryInternal) (hs : RegInv s) :
    RegInv (applyOpsFrom s ops) := by
  induction ops generalizing s with
  | nil => exact hs
  | cons op ops ih => exact ih (s.applyOp op) (regInv_applyOp s op hs)

theorem regInv_applyOps (ops : List RegOp) : RegInv (applyOps ops) :=
  regInv_applyOpsFrom ops registryDefault regInv_default

theorem lookup_type_applyOp_stable (s : RegistryInternal) (op : RegOp) (a : Nat)
    (q : QualifiedName) (h : s.lookup_type a = some q) :
    (s.applyOp op).lookup_type a = some q := by
  unfold RegistryInternal.lookup_type at h ⊢
  cases hl : s.typesInverse.lookup a with
  | none => rw [hl] at h; simp at h
  | some rcd =>
    rw [hl] at h
    cases op with
    | regType uri name =>
      unfold RegistryInternal.applyOp RegistryInternal.register_type
      dsimp only
      cases hk : s.types.lookup (uri ++ name) with
      | some rcd2 =>
        simp only [hk]
        rw [hl]
        exact h
      | none =>
        simp only [hk]
        rw [lookup_append_some _ _ _ _ hl]
        exact h
    | regFunction uri name =>
      unfold RegistryInternal.applyOp RegistryInternal.register_function
      dsimp only
      cases hk : s.functions.lookup (uri ++ name) with
      | some rcd2 =>
        simp only [hk]
        rw [hl]
        exact h
      | none =>
        simp only [hk]
        rw [hl]
        exact h

theorem lookup_function_applyOp_stable (s : RegistryInternal) (op : RegOp) (a : Nat)
    (q : QualifiedName) (h : s.lookup_function a = some q) :
    (s.applyOp op).lookup_function a = some q := by
  unfold RegistryInternal.lookup_function at h ⊢
  cases hl : s.functionsInverse.lookup a with
  | none => rw [hl] at h; simp at h
  | some rcd =>
    rw [hl] at h
    cases op with
    | regType uri name =>
      unfold RegistryInternal.applyOp RegistryInternal.register_type
      dsimp only
      cases hk : s.types.lookup (uri ++ name) with
      | some rcd2 =>
        simp only [hk]
        rw [hl]
        exact h
      | none =>
        simp only [hk]
        rw [hl]
        exact h
    | regFunction uri name =>
      unfold RegistryInternal.applyOp RegistryInternal.register_function
      dsimp only
      cases hk : s.functions.lookup (uri ++ name) with
      | some rcd2 =>
        simp only [hk]
        rw [hl]
        exact h
      | none =>
        simp only [hk]
        rw [lookup_append_some _ _ _ _ hl]
        exact h

theorem lookup_type_applyOpsFrom_stable (ops : List RegOp) (s : RegistryInternal) (a : Nat)
    (q : QualifiedName) (h : s.lookup_type a = some q) :
    (applyOpsFrom s ops).lookup_type a = some q := by
  induction ops generalizing s with
  | nil => exact h
  | cons op ops ih => exact ih (s.applyOp op) (lookup_type_applyOp_stable s op a q h)

theorem lookup_function_applyOpsFrom_stable (ops : List RegOp) (s : RegistryInternal) (a : Nat)
    (q : QualifiedName) (h : s.lookup_function a = some q) :
    (applyOpsFrom s ops).lookup_function a = some q := by
  induction ops generalizing s with
  | nil => exact h
  | cons op ops ih => exact ih (s.applyOp op) (lookup_function_applyOp_stable s op a q h)

theorem register_type_idem (s : RegistryInternal) (uri name : String) :
    ((s.register_type uri name).2).register_type uri name = s.register_type uri name := by
  unfold RegistryInternal.register_type
  dsimp only
  cases hl : s.types.lookup (uri ++ name) with
  | some rcd => simp only [hl]
  | none =>
    simp only [hl]
    rw [lookup_append_none _ _ _ hl, List.lookup_cons]
    simp

theorem register_function_idem (s : RegistryInternal) (uri name : String) :
    ((s.register_function uri name).2).register_function uri name =
      s.register_function uri name := by
  unfold RegistryInternal.register_function
  dsimp only
  cases hl : s.functions.lookup (uri ++ name) with
  | some rcd => simp only [hl]
  | none =>
    simp only [hl]
    rw [lookup_append_none _ _ _ hl, List.lookup_cons]
    simp

theorem register_type_fresh_anchor (s : RegistryInternal) (uri name : String)
    (hl : s.types.lookup (uri ++ name) = none) :
    (s.register_type uri name).1 = s.counter := by
  unfold RegistryInternal.register_type
  simp only [hl]

theorem register_function_fresh_anchor (s : RegistryInternal) (uri name : String)
    (hl : s.functions.lookup (uri ++ name) = none) :
    (s.register_function uri name).1 = s.counter := by
  unfold RegistryInternal.register_function
  simp only [hl]

theorem lookup_type_lt_counter (s : RegistryInternal) (hs : RegInv s) (a : Nat)
    (q : QualifiedName) (h : s.lookup_type a = some q) : a < s.counter := by
  unfold RegistryInternal.lookup_type at h
  cases hl : s.typesInverse.lookup a with
  | none => rw [hl] at h; simp at h
  | some rcd => exact hs.2.1 (a, rcd) (lookup_some_mem _ _ _ hl)

theorem lookup_function_lt_counter (s : RegistryInternal) (hs : RegInv s) (a : Nat)
    (q : QualifiedName) (h : s.lookup_function a = some q) : a < s.counter := by
  unfold RegistryInternal.lookup_function at h
  cases hl : s.functionsInverse.lookup a with
  | none => rw [hl] at h; simp at h
  | some rcd => exact hs.2.2.1 (a, rcd) (lookup_some_mem _ _ _ hl)

theorem register_type_roundtrip (s : RegistryInternal) (hs : RegInv s) (uri name : String)
    (hl : s.types.lookup (uri ++ name) = none) :
    ((s.register_type uri name).2).lookup_type ((s.register_type uri name).1) =
      some ⟨uri, name⟩ := by
  unfold RegistryInternal.register_type
  simp only [hl]
  unfold RegistryInternal.lookup_type
  dsimp only
  have hnone : s.typesInverse.lookup s.counter = none :=
    lookup_none_of_forall _ _ fun p hp => Nat.ne_of_lt (hs.2.1 p hp)
  rw [lookup_append_none _ _ _ hnone, List.lookup_cons]
  simp

theorem register_type_distinct_anchor (s : RegistryInternal) (hs : RegInv s)
    (uri1 name1 uri2 name2 : String) (hk : uri1 ++ name1 ≠ uri2 ++ name2) :
    (s.register_type uri1 name1).1 ≠
      (((s.register_type uri1 name1).2).register_type uri2 name2).1 := by
  unfold RegistryInternal.register_type
  cases ha : s.types.lookup (uri1 ++ name1) with
  | some r1 =>
    simp only [ha]
    cases hb : s.types.lookup (uri2 ++ name2) with
    | some r2 =>
      simp only [hb]
      exact lookup_pairwise_anchor_ne (hs.2.2.2.2.2.1) ha hb hk
    | none =>
      simp only [hb]
      exact Nat.ne_of_lt (hs.2.2.2.1 _ (lookup_some_mem _ _ _ ha))
  | none =>
    simp only [ha]
    cases hb : s.types.lookup (uri2 ++ name2) with
    | some r2 =>
      rw [lookup_append_some _ _ _ _ hb]
      exact fun he => absurd he.symm (Nat.ne_of_lt (hs.2.2.2.1 _ (lookup_some_mem _ _ _ hb)))
    | none =>
      have hb2 : ((uri2 ++ name2) == (uri1 ++ name1)) = false :=
        beq_eq_false_iff_ne.mpr (Ne.symm hk)
      rw [lookup_append_none _ _ _ hb, List.lookup_cons]
      simp only [hb2, List.lookup_nil]
      omega

/-! ## List lemmas for overload resolution (proof infrastructure) -/

theorem zip_all_iff {α β : Type} (p : α × β → Bool) :
    ∀ (as : List α) (bs : List β),
      ((as.zip bs).all p = true) ↔
        ∀ i (hi : i < as.length) (hj : i < bs.length),
          p (as.get ⟨i, hi⟩, bs.get ⟨i, hj⟩) = true
  | [], bs => by
    constructor
    · intro _ i hi hj
      exact absurd hi (Nat.not_lt_zero i)
    · intro _
      rfl
  | a :: as, [] => by
    constructor
    · intro _ i hi hj
      exact absurd hj (Nat.not_lt_zero i)
    · intro _
      rfl
  | a :: as, b :: bs => by
    rw [List.zip_cons_cons, List.all_cons, Bool.and_eq_true]
    constructor
    · rintro ⟨hpa, hrest⟩ i hi hj
      cases i with
      | zero => simpa using hpa
      | succ n =>
        have := (zip_all_iff p as bs).mp hrest n (Nat.lt_of_succ_lt_succ hi)
          (Nat.lt_of_succ_lt_succ hj)
        simpa using this
    · intro h
      refine ⟨by simpa using h 0 (Nat.succ_pos _) (Nat.succ_pos _), ?_⟩
      refine (zip_all_iff p as bs).mpr ?_
      intro n hn hm
      simpa using h (n + 1) (Nat.succ_lt_succ hn) (Nat.succ_lt_succ hm)

theorem zip_map_eq_zipWith {α β γ : Type} (f : α × β → γ) :
    ∀ (as : List α) (bs : List β),
      (as.zip bs).map f = List.zipWith (fun a b => f (a, b)) as bs
  | [], _ => by simp
  | _ :: _, [] => by simp
  | a :: as, b :: bs => by
    rw [List.zip_cons_cons, List.map_cons, List.zipWith_cons_cons, zip_map_eq_zipWith f as bs]

theorem find?_eq_some_of_first {α : Type} (p : α → Bool) :
    ∀ (l : List α) (k : Nat) (hk : k < l.length),
      p (l.get ⟨k, hk⟩) = true →
      (∀ j (hj : j < k), p (l.get ⟨j, Nat.lt_trans hj hk⟩) = false) →
      l.find? p = some (l.get ⟨k, hk⟩)
  | [], k, hk, _, _ => absurd hk (by simp)
  | a :: l, 0, _, hp, _ => by
    exact List.find?_cons_of_pos _ hp
  | a :: l, k + 1, hk, hp, hb => by
    have ha : p a = false := by simpa using hb 0 (Nat.succ_pos k)
    rw [List.find?_cons_of_neg _ (by simp [ha])]
    have := find?_eq_some_of_first p l k (Nat.lt_of_succ_lt_succ hk) (by simpa using hp)
      (fun j hj => by simpa using hb (j + 1) (Nat.succ_lt_succ hj))
    simpa using this

/-- The per-position matching condition, as the claim reads it: unknown
wildcard, or Enum arg with a string-kinded supplied type, or Value arg with a
same-kinded supplied type. -/
theorem arg_matches_result (a : ImplementationArg) (t : SType) :
    ((match a.matches t with
      | .ok b => b
      | .error _ => false) = true) ↔
      (t.is_unknown = true ∨
        (∃ opts, a.arg_type = .enum opts ∧ t.same_kind (types.string true) = .ok true) ∨
        (∃ expected, a.arg_type = .value expected ∧ t.same_kind expected = .ok true)) := by
  unfold ImplementationArg.matches
  cases hu : t.is_unknown with
  | true => simp
  | false =>
    simp only [hu, Bool.false_eq_true, if_false]
    cases ha : a.arg_type with
    | enum opts =>
      cases hsk : t.same_kind (types.string true) with
      | ok b =>
        cases b with
        | true =>
          constructor
          · intro _
            exact Or.inr (Or.inl ⟨opts, rfl, rfl⟩)
          · intro _
            rfl
        | false =>
          constructor
          · intro hfalse
            simp at hfalse
          · rintro (h | ⟨opts2, _, hsk2⟩ | ⟨e2, he, _⟩)
            · exact h.elim
            · simp at hsk2
            · exact ImplementationArgType.noConfusion he
      | error e =>
        constructor
        · intro hfalse
          simp at hfalse
        · rintro (h | ⟨opts2, _, hsk2⟩ | ⟨e2, he, _⟩)
          · exact h.elim
          · exact Except.noConfusion hsk2
          · exact ImplementationArgType.noConfusion he
    | value expected =>
      dsimp only
      cases hsk : t.same_kind expected with
      | ok b =>
        cases b with
        | true =>
          constructor
          · intro _
            exact Or.inr (Or.inr ⟨expected, rfl, hsk⟩)
          · intro _
            rfl
        | false =>
          constructor
          · intro hfalse
            simp at hfalse
          · rintro (h | ⟨opts2, he, _⟩ | ⟨e2, he, hsk2⟩)
            · exact h.elim
            · exact ImplementationArgType.noConfusion he
            · injection he with he2
              subst he2
              rw [hsk] at hsk2
              simp at hsk2
      | error e =>
        constructor
        · intro hfalse
          simp at hfalse
        · rintro (h | ⟨opts2, he, _⟩ | ⟨e2, he, hsk2⟩)
          · exact h.elim
          · exact ImplementationArgType.noConfusion he
          · injection he with he2
            subst he2
            rw [hsk] at hsk2
            exact Except.noConfusion hsk2

theorem matches_length_eq {imp : FunctionImplementation} {ts : List SType}
    (h : imp.matches ts = true) : ts.length = imp.args.length := by
  unfold FunctionImplementation.matches at h
  cases hlen : (ts.length != imp.args.length) with
  | true => rw [hlen] at h; simp at h
  | false => exact bne_eq_false_iff_eq.mp hlen

/-! ## Claim theorems -/

/-- C1: the claim says both TypesOnly and Full schemas resolve a chained
struct-field reference whose indices are in range to the type selected by the
final segment.  The Full branch does (first conjunct: the chain `[0].[1]` over
`{a: {b: i32, c: fp64?}}` resolves to `fp64?`), but the TypesOnly branch never
advances `ref_seg` to the child segment (`cur_seg = child.as_ref()` exists only
in the Full branch), so on the very same member shape and the same in-range
chain it returns an `InvalidInput "Invalid reference"` error instead of the
selected member's type (second and third conjuncts) — the code contradicts the
claim and `resolve_type`'s own documentation. -/
theorem c1_typesonly_branch_never_advances_segment :
    (SchemaInfo.full fullChainEx).resolve_type chainedRef = .ok (types.fp64 true) ∧
    (SchemaInfo.types typesChainEx).resolve_type chainedRef =
      .err (.invalidInput "Invalid reference") ∧
    (SchemaInfo.types typesChainEx).resolve_type chainedRef ≠ .ok (types.fp64 true) := by
  refine ⟨?_, ?_, ?_⟩
  · simp [SchemaInfo.resolve_type, fullResolveLoop, fullChainEx, chainedRef, types.struct_,
      types.i32, types.fp64, FullSchemaNode.children, FullSchemaNode.type]
  · simp [SchemaInfo.resolve_type, typesResolveLoop, typesChainEx, chainedRef, types.struct_,
      types.i32, types.fp64, SType.children]
  · intro h
    rw [show (SchemaInfo.types typesChainEx).resolve_type chainedRef =
        .err (.invalidInput "Invalid reference") by
      simp [SchemaInfo.resolve_type, typesResolveLoop, typesChainEx, chainedRef, types.struct_,
        types.i32, types.fp64, SType.children]] at h
    exact Outcome.noConfusion h

/-- C3: the claim says computing a referenced type always returns an error
value and never aborts.  In fact an out-of-range struct-field index on a
TypesOnly or Full schema hits unchecked vector indexing (`cur[field as usize]`,
`// TODO: Bounds checking?`) and panics, and the unimplemented list-element,
map-key, outer-rooted and expression-rooted steps are `todo!()` panics: each
conjunct evaluates the code at such an input to the `panic` outcome, not an
error value. -/
theorem c3_out_of_range_and_unimplemented_steps_panic :
    (SchemaInfo.full fullChainEx).resolve_type outOfRangeRef = .panic "index out of bounds" ∧
    (SchemaInfo.types typesChainEx).resolve_type outOfRangeRef = .panic "index out of bounds" ∧
    (SchemaInfo.full fullChainEx).resolve_type listElementRef = .panic "not yet implemented" ∧
    (SchemaInfo.types typesChainEx).resolve_type mapKeyRef = .panic "not yet implemented" ∧
    outerRootedExpr.output_type (SchemaInfo.full fullChainEx) = .panic "not yet implemented" ∧
    exprRootedExpr.output_type (SchemaInfo.full fullChainEx) = .panic "not yet implemented" := by
  refine ⟨?_, ?_, ?_, ?_, ?_, ?_⟩
  · simp [SchemaInfo.resolve_type, fullResolveLoop, fullChainEx, outOfRangeRef,
      FullSchemaNode.children, List.getElem?_cons_zero, List.getElem?_cons_succ,
      List.getElem?_nil]
  · simp [SchemaInfo.resolve_type, typesResolveLoop, typesChainEx, outOfRangeRef,
      types.struct_, List.getElem?_cons_zero, List.getElem?_cons_succ, List.getElem?_nil]
  · simp [SchemaInfo.resolve_type, fullResolveLoop, listElementRef]
  · simp [SchemaInfo.resolve_type, typesResolveLoop, mapKeyRef]
  · rfl
  · rfl

/-- C4 counterexample: the claim says a path of a name followed by two bracket
groups, such as `x[3][5]`, parses to `[Name x, ListIndex 3, ListIndex 5]`.  It
does not: the character after a closing `]` may only be `.` or end of input, so
parsing `x[3][5]` stops with an `InvalidInput` error at the second group. -/
theorem c4_consecutive_bracket_groups_rejected :
    parsePath "x[3][5]" = .error (.invalidInput "Invalid field reference: x[3][5]") ∧
    parsePath "x[3][5]" ≠
      .ok [.name "x", .listIndex 3, .listIndex 5] := by
  refine ⟨rfl, ?_⟩
  intro h
  have he : parsePath "x[3][5]" =
      .error (.invalidInput "Invalid field reference: x[3][5]") := rfl
  rw [he] at h
  exact Except.noConfusion h

/-- C4 amended: after a closing bracket only `.` or end of input is accepted,
so consecutive bracket groups (`x[3][5]`) are rejected with an error, while a
single trailing bracket group (`x[3]`) and a dot-separated continuation
(`x[3].y[5]`) parse as expected. -/
theorem c4_bracket_group_continuations :
    parsePath "x[3][5]" = .error (.invalidInput "Invalid field reference: x[3][5]") ∧
    parsePath "x[3]" = .ok [.name "x", .listIndex 3] ∧
    parsePath "x[3].y[5]" = .ok [.name "x", .listIndex 3, .name "y", .listIndex 5] :=
  ⟨rfl, rfl, rfl⟩

/-- C5 counterexample: the claim says every path with an empty dot-separated
segment — including a trailing dot such as `a.` — is an error.  In fact `a.`
parses successfully: the dot is consumed when the `a` segment is emitted and
the exhausted iterator then just ends, yielding `[Name a]`. -/
theorem c5_trailing_dot_accepted :
    parsePath "a." = .ok [.name "a"] := rfl

/-- C5 amended: a leading dot (`.a`) and a doubled dot (`a..b`) are parse
errors, but a trailing dot (`a.`) is silently accepted and yields the segments
before it. -/
theorem c5_empty_segment_behaviour :
    parsePath ".a" = .error (.invalidInput "Invalid field reference: .a") ∧
    parsePath "a..b" = .error (.invalidInput "Invalid field reference: a..b") ∧
    parsePath "a." = .ok [.name "a"] :=
  ⟨rfl, rfl, rfl⟩

/-- C6: the claim says `names_dfs` yields names in pre-order with siblings
left-to-right for NamesOnly and Full, and errors for Empty and TypesOnly.  The
error cases hold and the Full branch is correct (`[score, location, x, y]`),
but the NamesOnly iterator seeds its stack with `Vec::from_iter(children.iter())`
— without the `.rev()` the Full branch uses and without the reversal it itself
applies to deeper children — so the ROOT siblings are emitted right-to-left:
on `{a: {b, c}, d}` it yields `[d, a, b, c]` instead of the claimed
`[a, b, c, d]`. -/
theorem c6_names_dfs_root_siblings_reversed :
    SchemaInfo.empty.names_dfs =
      .error (.invalidInput "Attempt to access field names when the schema is not name-aware") ∧
    (SchemaInfo.types typesChainEx).names_dfs =
      .error (.invalidInput "Attempt to access field names when the schema is not name-aware") ∧
    (SchemaInfo.full fullNamesEx).names_dfs = .ok ["score", "location", "x", "y"] ∧
    (SchemaInfo.names namesEx).names_dfs = .ok ["d", "a", "b", "c"] ∧
    (SchemaInfo.names namesEx).names_dfs ≠ .ok ["a", "b", "c", "d"] := by
  refine ⟨rfl, rfl, ?_, ?_, ?_⟩
  · simp [SchemaInfo.names_dfs, fullNamesEx, fullFieldsDfs, FullSchemaNode.children,
      FullSchemaNode.name, namesDfsIter]
  · simp [SchemaInfo.names_dfs, namesEx, namesDfsIter, NamesOnlySchemaNode.children,
      NamesOnlySchemaNode.name]
  · intro h
    rw [show (SchemaInfo.names namesEx).names_dfs = .ok ["d", "a", "b", "c"] by
      simp [SchemaInfo.names_dfs, namesEx, namesDfsIter, NamesOnlySchemaNode.children,
        NamesOnlySchemaNode.name]] at h
    simp at h

/-- C9: building the full schema `{score: i32 not-null, location: {x: fp32
not-null, y: fp64 nullable}}` through the builder and flattening it with
`to_substrait` yields the DFS names `[score, location, x, y]` and the leaf
types `[i32 not-null, fp32 not-null, fp64 nullable]` in the same order, with
the struct wrapper node excluded from the types list. -/
theorem c9_full_schema_flattening :
    c9Schema.bind SchemaInfo.to_substrait =
      .ok ⟨["score", "location", "x", "y"],
        some ⟨[types.i32 false, types.fp32 false, types.fp64 true], nullability false, 0⟩⟩ := by
  simp [c9Schema, Outcome.bind, SchemaInfo.new_full, FullSchemaBuilder.new,
    FullSchemaBuilder.field, FullSchemaBuilder.nested, FullSchemaBuilder.inner_build,
    FullSchemaBuilder.build, SchemaInfo.to_substrait, SchemaInfo.types_dfs,
    SchemaInfo.names_dfs, SchemaInfo.names_aware, fullFieldsDfs, namesDfsIter,
    FullSchemaNode.children, FullSchemaNode.name, FullSchemaNode.type,
    types.i32, types.fp32, types.fp64, types.struct_]

/-- C7: over any registration history (`applyOps ops`), (1,2) re-registering an
already-registered type/function returns the same anchor and the same state as
the first call; (3) the one shared counter always equals 1 plus the number of
assignments made (so it starts at 1 and each fresh registration of either kind
advances it by one — first-seen order); (4,5) a fresh registration is assigned
exactly the current counter value, which by (6,7) is strictly above every
anchor ever assigned — an anchor is never reused; (8,9) once an anchor resolves
to a qualified name it resolves to that same name after any further
registrations — never reassigned. -/
theorem c7_registry_anchor_discipline (ops : List RegOp) (uri name : String) :
    (((applyOps ops).register_type uri name).2).register_type uri name =
        (applyOps ops).register_type uri name ∧
    (((applyOps ops).register_function uri name).2).register_function uri name =
        (applyOps ops).register_function uri name ∧
    (applyOps ops).counter =
        1 + (applyOps ops).typesInverse.length + (applyOps ops).functionsInverse.length ∧
    ((applyOps ops).types.lookup (uri ++ name) = none →
        ((applyOps ops).register_type uri name).1 = (applyOps ops).counter) ∧
    ((applyOps ops).functions.lookup (uri ++ name) = none →
        ((applyOps ops).register_function uri name).1 = (applyOps ops).counter) ∧
    (∀ a q, (applyOps ops).lookup_type a = some q → a < (applyOps ops).counter) ∧
    (∀ a q, (applyOps ops).lookup_function a = some q → a < (applyOps ops).counter) ∧
    (∀ a q ops2, (applyOps ops).lookup_type a = some q →
        (applyOpsFrom (applyOps ops) ops2).lookup_type a = some q) ∧
    (∀ a q ops2, (applyOps ops).lookup_function a = some q →
        (applyOpsFrom (applyOps ops) ops2).lookup_function a = some q) := by
  have hs := regInv_applyOps ops
  refine ⟨register_type_idem _ uri name, register_function_idem _ uri name, hs.1,
    register_type_fresh_anchor _ uri name, register_function_fresh_anchor _ uri name,
    fun a q h => lookup_type_lt_counter _ hs a q h,
    fun a q h => lookup_function_lt_counter _ hs a q h,
    fun a q ops2 h => lookup_type_applyOpsFrom_stable ops2 _ a q h,
    fun a q ops2 h => lookup_function_applyOpsFrom_stable ops2 _ a q h⟩

/-- C7 witness: after registering one type and one function, registering a
fresh type name is assigned the current counter value, which is 3. -/
theorem c7_registry_anchor_discipline_witness :
    (applyOps c7DemoOps).types.lookup ("https://example.com/c.yaml" ++ "t2") = none ∧
    ((applyOps c7DemoOps).register_type "https://example.com/c.yaml" "t2").1 =
      (applyOps c7DemoOps).counter ∧
    (applyOps c7DemoOps).counter = 3 :=
  ⟨rfl,
    (c7_registry_anchor_discipline c7DemoOps "https://example.com/c.yaml" "t2").2.2.2.1 rfl,
    rfl⟩

/-- C8: when the expression's output type computes to `t` against the
builder's owned schema, `add_expression` appends the named expression exactly
when the number of output names equals `num_types t`; on a mismatch it returns
an `InvalidInput` error and the accumulated expression list (indeed the whole
builder state) is unchanged. -/
theorem c8_add_expression_atomic (b : ExpressionsBuilder) (output_names : List String)
    (expression : Expression) (t : SType)
    (ht : expression.output_type b.schema = .ok t) :
    (output_names.length = t.num_types →
      b.add_expression output_names expression =
        (.ok (), ⟨b.schema, b.expressions ++ [⟨expression, output_names⟩]⟩)) ∧
    (output_names.length ≠ t.num_types →
      b.add_expression output_names expression =
        (.err (.invalidInput ("An expression was given that returns " ++
          toString t.num_types ++ " types but only " ++
          toString output_names.length ++ " names were given")), b)) := by
  constructor
  · intro hlen
    have hb : (t.num_types != output_names.length) = false := by
      simp [bne_eq_false_iff_eq, hlen]
    simp only [ExpressionsBuilder.add_expression, NamedExpression.try_new, ht, hb]
    rfl
  · intro hlen
    have hb : (t.num_types != output_names.length) = true := by
      simp only [bne_iff_ne, ne_eq]
      exact fun he => hlen he.symm
    simp only [ExpressionsBuilder.add_expression, NamedExpression.try_new, ht, hb]
    rfl

/-- C8 witness: against the empty schema, an expression of output type
`struct(i32)` (2 leaf types) is appended with two names and rejected — builder
left unchanged — with one name. -/
theorem c8_add_expression_atomic_witness :
    argStruct2.output_type SchemaInfo.empty = .ok (types.struct_ [types.i32 false] false) ∧
    (ExpressionsBuilder.mk SchemaInfo.empty []).add_expression ["a", "b"] argStruct2 =
      (.ok (), ⟨SchemaInfo.empty, [] ++ [⟨argStruct2, ["a", "b"]⟩]⟩) ∧
    (ExpressionsBuilder.mk SchemaInfo.empty []).add_expression ["a"] argStruct2 =
      (.err (.invalidInput ("An expression was given that returns " ++
        toString (types.struct_ [types.i32 false] false).num_types ++ " types but only " ++
        toString (["a"] : List String).length ++ " names were given")),
        ⟨SchemaInfo.empty, []⟩) :=
  ⟨rfl,
    (c8_add_expression_atomic ⟨SchemaInfo.empty, []⟩ ["a", "b"] argStruct2
      (types.struct_ [types.i32 false] false) rfl).1 (by rfl),
    (c8_add_expression_atomic ⟨SchemaInfo.empty, []⟩ ["a"] argStruct2
      (types.struct_ [types.i32 false] false) rfl).2 (by decide)⟩

/-- C10 counterexample: registry keys are the concatenation `uri + name` with
no separator, so the distinct pairs `("ab","c")` and `("a","bc")` collide on
the key `"abc"`: registering the second returns the FIRST pair's anchor, and
looking that anchor up returns `("ab","c")`, not `("a","bc")` — refuting both
the round-trip and the distinct-anchors reading of the claim. -/
theorem c10_concatenated_key_collision :
    ((registryDefault.register_type "ab" "c").2.register_type "a" "bc").1 =
      (registryDefault.register_type "ab" "c").1 ∧
    ((registryDefault.register_type "ab" "c").2.register_type "a" "bc").2.lookup_type
        (((registryDefault.register_type "ab" "c").2.register_type "a" "bc").1) =
      some ⟨"ab", "c"⟩ ∧
    (⟨"ab", "c"⟩ : QualifiedName) ≠ ⟨"a", "bc"⟩ :=
  ⟨rfl, rfl, by decide⟩

/-- C10 amended: the round-trip and anchor-distinctness hold up to key
concatenation — on any reachable registry, registering a pair whose
concatenated key `uri ++ name` is not yet present makes `lookup_type` of the
returned anchor yield exactly that pair, and two successive registrations
whose concatenated keys differ receive distinct anchors.  (Pairs with equal
concatenations, such as `("ab","c")` and `("a","bc")`, are conflated.) -/
theorem c10_lookup_roundtrip_up_to_key_concatenation (ops : List RegOp)
    (uri1 name1 uri2 name2 : String) :
    ((applyOps ops).types.lookup (uri1 ++ name1) = none →
      (((applyOps ops).register_type uri1 name1).2).lookup_type
          (((applyOps ops).register_type uri1 name1).1) = some ⟨uri1, name1⟩) ∧
    (uri1 ++ name1 ≠ uri2 ++ name2 →
      ((applyOps ops).register_type uri1 name1).1 ≠
        ((((applyOps ops).register_type uri1 name1).2).register_type uri2 name2).1) := by
  have hs := regInv_applyOps ops
  exact ⟨fun hl => register_type_roundtrip _ hs uri1 name1 hl,
    fun hk => register_type_distinct_anchor _ hs uri1 name1 uri2 name2 hk⟩

/-- C10 witness: on a fresh registry, registering `("https://u","t")` and then
`("https://v","w")` round-trips the first pair and assigns distinct anchors. -/
theorem c10_lookup_roundtrip_witness :
    (applyOps []).types.lookup ("https://u" ++ "t") = none ∧
    (((applyOps []).register_type "https://u" "t").2).lookup_type
        (((applyOps []).register_type "https://u" "t").1) = some ⟨"https://u", "t"⟩ ∧
    ("https://u" ++ "t" ≠ "https://v" ++ "w") ∧
    ((applyOps []).register_type "https://u" "t").1 ≠
      ((((applyOps []).register_type "https://u" "t").2).register_type "https://v" "w").1 :=
  ⟨rfl,
    (c10_lookup_roundtrip_up_to_key_concatenation [] "https://u" "t" "https://v" "w").1 rfl,
    by decide,
    (c10_lookup_roundtrip_up_to_key_concatenation [] "https://u" "t" "https://v" "w").2
      (by decide)⟩

/-- C2: with the arguments' static types computing to `ts`, (1) an
implementation matches exactly when arity is equal and each position is the
unknown wildcard, or an Enum arg with a string-kinded supplied type, or a
Value arg with a same-kinded supplied type; (2) when no implementation
matches, resolution reports the no-matching-overload `InvalidInput` error; (3)
the FIRST (declaration-order) matching implementation is selected and relaxed:
each position whose supplied type is unknown becomes a Value arg of that
unknown type, and the output type becomes the unknown sentinel exactly when
any supplied type is unknown. -/
theorem c2_pick_implementation_first_match_and_relax (fd : FunctionDefinition)
    (args : List Expression) (schema : SchemaInfo) (ts : List SType)
    (hts : argOutputTypes args schema = .ok ts) :
    (∀ imp : FunctionImplementation,
        imp.matches ts = true ↔
          (ts.length = imp.args.length ∧
            ∀ i (hi : i < imp.args.length) (hj : i < ts.length),
              (ts.get ⟨i, hj⟩).is_unknown = true ∨
              (∃ opts, (imp.args.get ⟨i, hi⟩).arg_type = .enum opts ∧
                  (ts.get ⟨i, hj⟩).same_kind (types.string true) = .ok true) ∨
              (∃ expected, (imp.args.get ⟨i, hi⟩).arg_type = .value expected ∧
                  (ts.get ⟨i, hj⟩).same_kind expected = .ok true))) ∧
    ((∀ imp ∈ fd.implementations, imp.matches ts = false) →
        pickOrError fd args schema = .err (noMatchingOverload fd)) ∧
    (∀ k (hk : k < fd.implementations.length),
        (fd.implementations.get ⟨k, hk⟩).matches ts = true →
        (∀ j (hj : j < k), (fd.implementations.get ⟨j, Nat.lt_trans hj hk⟩).matches ts = false) →
        pickOrError fd args schema = .ok
          ⟨List.zipWith
              (fun a t =>
                if t.is_unknown then ⟨a.name, ImplementationArgType.value t⟩ else a)
              (fd.implementations.get ⟨k, hk⟩).args ts,
            if ts.any SType.is_unknown then typesUnknown
            else (fd.implementations.get ⟨k, hk⟩).output_type⟩) := by
  refine ⟨?_, ?_, ?_⟩
  · intro imp
    unfold FunctionImplementation.matches
    cases hlen : (ts.length != imp.args.length) with
    | true =>
      rw [if_pos rfl]
      constructor
      · intro h
        simp at h
      · rintro ⟨heq, -⟩
        exact absurd heq (bne_iff_ne.mp hlen)
    | false =>
      rw [if_neg (by simp)]
      rw [zip_all_iff]
      constructor
      · intro hall
        exact ⟨bne_eq_false_iff_eq.mp hlen,
          fun i hi hj => (arg_matches_result _ _).mp (hall i hi hj)⟩
      · rintro ⟨-, hpt⟩ i hi hj
        exact (arg_matches_result _ _).mpr (hpt i hi hj)
  · intro hall
    have hfind : fd.implementations.find? (fun imp => imp.matches ts) = none :=
      List.find?_eq_none.mpr fun x hx => by simp [hall x hx]
    unfold pickOrError FunctionDefinition.pick_implementation_from_args
    simp only [hts, hfind]
  · intro k hk hmk hbefore
    have hfind : fd.implementations.find? (fun imp => imp.matches ts) =
        some (fd.implementations.get ⟨k, hk⟩) :=
      find?_eq_some_of_first _ fd.implementations k hk hmk hbefore
    have hlen : ts.length = (fd.implementations.get ⟨k, hk⟩).args.length :=
      matches_length_eq hmk
    have hrelax : (fd.implementations.get ⟨k, hk⟩).relax ts = .ok
        ⟨List.zipWith
            (fun a t =>
              if t.is_unknown then ⟨a.name, ImplementationArgType.value t⟩ else a)
            (fd.implementations.get ⟨k, hk⟩).args ts,
          if ts.any SType.is_unknown then typesUnknown
          else (fd.implementations.get ⟨k, hk⟩).output_type⟩ := by
      unfold FunctionImplementation.relax
      have hbne : ((fd.implementations.get ⟨k, hk⟩).args.length != ts.length) = false :=
        bne_eq_false_iff_eq.mpr hlen.symm
      simp only [hbne]
      rw [if_neg (by simp)]
      rw [zip_map_eq_zipWith]
    unfold pickOrError FunctionDefinition.pick_implementation_from_args
    simp only [hts, hfind, hrelax]

/-- C2 witness: a function with implementations `(i32,i32)→i32` then
`(fp64,fp64)→fp64`, called with argument types `(i32, unknown)`: the
argument-type computation succeeds, the first implementation matches, and
resolution selects it, relaxing the second argument to the unknown type and
forcing the output type to unknown. -/
theorem c2_pick_implementation_witness :
    argOutputTypes [argI32, argUnknown] SchemaInfo.empty =
      .ok [types.i32 false, typesUnknown] ∧
    implI32.matches [types.i32 false, typesUnknown] = true ∧
    pickOrError addDef [argI32, argUnknown] SchemaInfo.empty =
      .ok ⟨[⟨"x", .value (types.i32 false)⟩, ⟨"y", .value typesUnknown⟩], typesUnknown⟩ := by
  refine ⟨rfl, rfl, ?_⟩
  have h := (c2_pick_implementation_first_match_and_relax addDef [argI32, argUnknown]
    SchemaInfo.empty [types.i32 false, typesUnknown] rfl).2.2 0 (by simp [addDef])
    (by rfl) (fun j hj => absurd hj (Nat.not_lt_zero j))
  rw [h]
  rfl

end SubstraitExpr
